import Mathlib

/-
Shallow embedding of the bencode-related code in src/main.rs of the
codecrafters-bittorrent-rust repository, together with theorems settling the
specification claims about it.

Rust strings (&str / String) are modelled as `List Char`; all inputs appearing
in the claims are ASCII, where one Rust char is one byte.  Fallible Rust
functions returning `Result` are modelled with `RResult`; Rust code that can
panic (unwrap / panic!) is modelled with `PanicOr`, whose `panicked`
constructor carries an abbreviation of the Rust panic message.
-/

/-- Rust `Result<T, E>`: `Ok` holds a success value, `Err` an error value. -/
inductive RResult (α ε : Type) where
  | Ok (val : α)
  | Err (err : ε)
deriving DecidableEq, Repr

/-- Outcome of running a piece of Rust code that may panic: either a normal
return value or a panic carrying (an abbreviation of) the panic message. -/
inductive PanicOr (α : Type) where
  | ok (val : α)
  | panicked (msg : String)
deriving DecidableEq, Repr

/-- Convenience: the character list of a string literal. -/
def str (s : String) : List Char := s.data

/-- Rust `s.split(':')` on a string: `n` occurrences of `':'` yield `n + 1`
parts (the separators are dropped), and the empty string yields one empty
part. -/
def splitColon : List Char → List (List Char)
  | [] => [[]]
  | c :: rest =>
    match splitColon rest with
    | [] => [[]]
    | p :: ps => if c = ':' then [] :: p :: ps else (c :: p) :: ps

/-- Numeric value of a list of decimal digit characters, most significant
first (the accumulator loop inside Rust's integer `FromStr`). -/
def digitsVal (s : List Char) : Nat :=
  s.foldl (fun acc c => acc * 10 + (c.toNat - 48)) 0

/-- Rust `char::is_numeric` (Unicode categories Nd, Nl, No).  On the ASCII
range — the only characters that occur in bencode data and in every input of
this development — the Unicode numeric characters are exactly the decimal
digits `'0'..='9'`, so the model uses `Char.isDigit`; it under-approximates
`is_numeric` only on non-ASCII numerals, which no claim involves. -/
def isNumericChar (c : Char) : Bool := c.isDigit

/-- Rust `str::parse::<usize>` (64-bit target), including the display
messages of the `ParseIntError` values it produces: an optional leading `'+'`
followed by one or more ASCII decimal digits, rejecting the empty string, any
other character, and values that do not fit in 64 bits. -/
def parseUsizeE (s : List Char) : RResult Nat String :=
  match s with
  | [] => RResult.Err "cannot parse integer from empty string"
  | c :: rest =>
    let body := if c = '+' then rest else c :: rest
    if body = [] then RResult.Err "invalid digit found in string"
    else if body.all Char.isDigit then
      if digitsVal body < 2 ^ 64 then RResult.Ok (digitsVal body)
      else RResult.Err "number too large to fit in target type"
    else RResult.Err "invalid digit found in string"

/-- Rust `str::parse` for a signed `bits`-wide integer (`i32`, `i64`): an
optional leading `'+'` or `'-'`, one or more decimal digits, and a two's
complement range check.  Only success/failure and the value are needed by the
embedded code (the error goes through `unwrap`), so the result is an
`Option`. -/
def parseSigned (bits : Nat) (s : List Char) : Option Int :=
  match s with
  | [] => none
  | c :: rest =>
    let body := if c = '-' ∨ c = '+' then rest else c :: rest
    if body = [] then none
    else if body.all Char.isDigit then
      let v : Int := if c = '-' then -(digitsVal body : Int) else (digitsVal body : Int)
      if -(2 ^ (bits - 1) : Int) ≤ v ∧ v < (2 ^ (bits - 1) : Int) then some v else none
    else none

/-- The `std::io::ErrorKind` variants the embedded code constructs. -/
inductive IoErrorKind where
  | invalidData
  | invalidInput
deriving DecidableEq, Repr

/-- Rust `std::io::Error` as built by `io::Error::new(kind, msg)` in
`bencode::Data::from_str`: an error kind plus a message string. -/
structure IoError where
  kind : IoErrorKind
  msg : String
deriving DecidableEq, Repr

/-- The `bencode::Kind` enum of src/main.rs.  In the source it is generic in
an iterator type `I` and a closure type `F`, with `Arr(I)` and
`Dic(std::iter::Map<I, F>)`; the iterator payloads are opaque to every
operation in the file (no code ever constructs or consumes them), so they are
the type parameters `I` and `D` here. -/
inductive Kind (I D : Type) where
  | Str (s : List Char)
  | Int (n : Int)
  | Arr (it : I)
  | Dic (it : D)
deriving DecidableEq

/-- The `bencode::Data` struct of src/main.rs: a `length: usize` field and a
`kind: Kind` field. -/
structure Data (I D : Type) where
  length : Nat
  kind : Kind I D
deriving DecidableEq

/-- `bencode::Data::from_str` of src/main.rs: split the input on `':'`;
unless the split has exactly two parts, fail with `InvalidData` and the
split-count message; otherwise parse part 0 (`spl.nth(0)`) as `usize` —
failing with `InvalidData` carrying the `ParseIntError` message — and wrap
part 1 (the second `spl.nth(0)` on the advanced iterator) as `Kind::Str`.
The two `None` arms mirror the source's unreachable `nth` failure arms and
keep its (sic) error texts. -/
def Data.from_str (I D : Type) (s : List Char) : RResult (Data I D) IoError :=
  match (splitColon s).length with
  | 2 =>
    match ((splitColon s).get? 0).map parseUsizeE with
    | some (RResult.Ok length) =>
      match (splitColon s).get? 1 with
      | some content => RResult.Ok { length := length, kind := Kind.Str content }
      | none => RResult.Err { kind := IoErrorKind.invalidData, msg := "failed to get content" }
    | some (RResult.Err e) => RResult.Err { kind := IoErrorKind.invalidData, msg := e }
    | none => RResult.Err { kind := IoErrorKind.invalidData, msg := "coulndt parse length value" }
  | cnt =>
    RResult.Err { kind := IoErrorKind.invalidData
                  msg := "expected splitcount 2, got " ++ Nat.repr cnt }

/-- The `bencode::IntegerFieldKey` newtype of src/main.rs (an `i32`). -/
structure IntegerFieldKey where
  val : Int
deriving DecidableEq, Repr

/-- `IntegerFieldKey::from_str` of src/main.rs: if any character of the input
is numeric, return `Err(io::ErrorKind::InvalidInput)`; otherwise split on
`':'` and take the first two parts (`spl.nth(0)` twice); if both exist, the
second is parsed as `i32` and the `Result` is `unwrap`ped — a panic whenever
the parse fails (which, on this branch, is always, since the input has no
digits) — and if not, return `Err(io::ErrorKind::InvalidData)`. -/
def IntegerFieldKey.from_str (s : List Char) :
    PanicOr (RResult IntegerFieldKey IoErrorKind) :=
  if s.any isNumericChar then PanicOr.ok (RResult.Err IoErrorKind.invalidInput)
  else
    match (splitColon s).get? 0, (splitColon s).get? 1 with
    | some _key, some value =>
      match parseSigned 32 value with
      | some v => PanicOr.ok (RResult.Ok { val := v })
      | none => PanicOr.panicked "called Result unwrap on an Err value: ParseIntError"
    | _, _ => PanicOr.ok (RResult.Err IoErrorKind.invalidData)

/-- `serde_json::Value` restricted to the single variant that
`decode_bencoded_value` ever constructs (`Value::String`). -/
inductive JsonValue where
  | str (s : List Char)
deriving DecidableEq, Repr

/-- Rust `number as usize` for an `i64` value: two's complement wrap into
64 bits. -/
def i64AsUsize (n : Int) : Nat := (n.emod (2 ^ 64)).toNat

/-- The free function `decode_bencoded_value` of src/main.rs: `unwrap` the
first character (panic on empty input); if it is a decimal digit, `unwrap`
the index of the first `':'` (panic when absent), `unwrap` the `i64` parse of
the prefix before the colon (panic on failure), then take the slice of
`number` bytes after the colon — a panic when the slice end exceeds the input
length; any other first character reaches the `panic!` with the "Unhandled
encoded value" message. -/
def decode_bencoded_value (s : List Char) : PanicOr JsonValue :=
  match s.head? with
  | none => PanicOr.panicked "called Option unwrap on a None value"
  | some c =>
    if c.isDigit then
      match s.findIdx? (fun x => x = ':') with
      | none => PanicOr.panicked "called Option unwrap on a None value"
      | some colonIndex =>
        match parseSigned 64 (s.take colonIndex) with
        | none => PanicOr.panicked "called Result unwrap on an Err value: ParseIntError"
        | some number =>
          if colonIndex + 1 + i64AsUsize number ≤ s.length then
            PanicOr.ok (JsonValue.str ((s.drop (colonIndex + 1)).take (i64AsUsize number)))
          else PanicOr.panicked "byte index out of bounds"
    else PanicOr.panicked ("Unhandled encoded value: " ++ String.mk s)

/-- Modelled from the spec: the repository's source contains no Value model
(its `Kind` is only ever built with `Str`) — the spec's **Value**, "a closed
variant type with four cases": ByteString (bytes, here characters per the
string model above), Integer (signed 64-bit), List (ordered sequence), and
Dictionary (mapping from ByteString key to Value; stored key-sorted, the
canonical-order invariant of §3, as a BTreeMap-style mapping structure
would). -/
inductive Value where
  | byteString (bs : List Char)
  | integer (n : Int)
  | list (elems : List Value)
  | dict (pairs : List (List Char × Value))

/-- Decimal digits of a natural number, no leading zeros (`0` is `"0"`). -/
def natDec (n : Nat) : List Char := (Nat.repr n).data

/-- Minimal decimal representation of an integer: a single leading `'-'` for
negatives, no leading zeros, `0` as `"0"`. -/
def intDec (n : Int) : List Char := if n < 0 then '-' :: natDec n.natAbs else natDec n.toNat

mutual

/-- Modelled from the spec: the repository contains no encoder at all — §4.3's
`encode(Value) -> sequence of bytes`: ByteString as `<len>:<bytes>`, Integer
as `i<decimal>e`, List as `l` + element encodings in stored order + `e`,
Dictionary as `d` + `<encoded key><encoded value>` pairs in byte-lexicographic
key order (the stored order, per the sorted-storage invariant) + `e`. -/
def Value.encode : Value → List Char
  | Value.byteString bs => natDec bs.length ++ ':' :: bs
  | Value.integer n => 'i' :: intDec n ++ ['e']
  | Value.list vs => 'l' :: Value.encodeList vs ++ ['e']
  | Value.dict ps => 'd' :: Value.encodePairs ps ++ ['e']

/-- Concatenation of the encodings of a list of Values, in order. -/
def Value.encodeList : List Value → List Char
  | [] => []
  | v :: vs => Value.encode v ++ Value.encodeList vs

/-- Concatenation of `<encoded key><encoded value>` for dictionary pairs, in
stored (sorted) order; a key encodes as the ByteString `<len>:<key>`. -/
def Value.encodePairs : List (List Char × Value) → List Char
  | [] => []
  | (k, v) :: ps => (natDec k.length ++ ':' :: k) ++ Value.encode v ++ Value.encodePairs ps

end

/-- Splitting never produces an empty list of parts. -/
theorem splitColon_ne_nil (l : List Char) : splitColon l ≠ [] := by
  cases l with
  | nil => simp [splitColon]
  | cons c rest =>
    simp only [splitColon]
    cases splitColon rest with
    | nil => simp
    | cons p ps => by_cases hc : c = ':' <;> simp [hc]

/-- A colon-free string splits into exactly itself. -/
theorem splitColon_of_not_mem {l : List Char} (h : ':' ∉ l) : splitColon l = [l] := by
  induction l with
  | nil => rfl
  | cons c rest ih =>
    have hc : c ≠ ':' := fun hc => h (hc ▸ List.mem_cons_self c rest)
    have hr : ':' ∉ rest := fun hm => h (List.mem_cons_of_mem _ hm)
    simp [splitColon, ih hr, hc]

/-- Splitting a string whose first colon separates a colon-free head from the
rest peels off the head as the first part. -/
theorem splitColon_append {ds rest : List Char} (h : ':' ∉ ds) :
    splitColon (ds ++ ':' :: rest) = ds :: splitColon rest := by
  induction ds with
  | nil =>
    obtain ⟨p, ps, hps⟩ := List.exists_cons_of_ne_nil (splitColon_ne_nil rest)
    simp [splitColon, hps]
  | cons c ds' ih =>
    have hc : c ≠ ':' := fun hc => h (hc ▸ List.mem_cons_self c ds')
    have hd : ':' ∉ ds' := fun hm => h (List.mem_cons_of_mem _ hm)
    simp [splitColon, ih hd, hc]

/-- A string that parses as `usize` contains no colon (its characters are a
possible leading plus sign followed by digits). -/
theorem parseUsizeE_ok_not_colon {ds : List Char} {L : Nat}
    (h : parseUsizeE ds = RResult.Ok L) : ':' ∉ ds := by
  cases ds with
  | nil => simp [parseUsizeE] at h
  | cons c rest =>
    intro hmem
    simp only [parseUsizeE] at h
    set body := if c = '+' then rest else c :: rest with hbody
    by_cases h1 : body = []
    · rw [if_pos h1] at h
      exact absurd h (by simp)
    · rw [if_neg h1] at h
      by_cases h2 : body.all Char.isDigit = true
      · rcases List.mem_cons.mp hmem with hx | hx
        · by_cases hc : c = '+'
          · exact absurd (hx.trans hc) (by decide)
          · have hbody' : body = c :: rest := by rw [hbody, if_neg hc]
            have hdig : Char.isDigit c = true :=
              List.all_eq_true.mp h2 _ (hbody' ▸ List.mem_cons_self c rest)
            rw [← hx] at hdig
            exact absurd hdig (by decide)
        · have hin : ':' ∈ body := by
            by_cases hc : c = '+'
            · rw [hbody, if_pos hc]; exact hx
            · rw [hbody, if_neg hc]; exact List.mem_cons_of_mem _ hx
          have hdig : Char.isDigit ':' = true := List.all_eq_true.mp h2 _ hin
          exact absurd hdig (by decide)
      · rw [if_neg h2] at h
        exact absurd h (by simp)

/-- Successful decoding of `<length>:<colon-free content>`: `Data::from_str`
accepts it and stores the parsed length and the entire content, whatever the
relation between the two. -/
theorem from_str_append (I D : Type) {ds content : List Char} {L : Nat}
    (hparse : parseUsizeE ds = RResult.Ok L) (hc : ':' ∉ content) :
    Data.from_str I D (ds ++ ':' :: content) =
      RResult.Ok { length := L, kind := Kind.Str content } := by
  have hds : ':' ∉ ds := parseUsizeE_ok_not_colon hparse
  have hsp : splitColon (ds ++ ':' :: content) = [ds, content] := by
    rw [splitColon_append hds, splitColon_of_not_mem hc]
  simp [Data.from_str, hsp, hparse]

/-- Complete case analysis of `Data::from_str`: either the input splits into
exactly two parts with a parseable first part, and decoding succeeds with
that length and the second part as a `Str`, or decoding returns an error. -/
theorem from_str_cases (s : List Char) :
    (∃ a b L, splitColon s = [a, b] ∧ parseUsizeE a = RResult.Ok L ∧
      Data.from_str Unit Unit s = RResult.Ok { length := L, kind := Kind.Str b }) ∨
    (∀ d, Data.from_str Unit Unit s ≠ RResult.Ok d) := by
  rcases h : splitColon s with _ | ⟨a, _ | ⟨b, _ | ⟨c, rest⟩⟩⟩
  · exact Or.inr fun d => by simp [Data.from_str, h]
  · exact Or.inr fun d => by simp [Data.from_str, h]
  · rcases hp : parseUsizeE a with L | e
    · exact Or.inl ⟨a, b, L, rfl, hp, by simp [Data.from_str, h, hp]⟩
    · exact Or.inr fun d => by simp [Data.from_str, h, hp]
  · exact Or.inr fun d => by simp [Data.from_str, h]

/-- Claim C1: the round-trip law `decode(encode(v)) == v` fails on the code.
The repository has no encoder (modelled from the spec), and its decoder
`bencode::Data::from_str` cannot parse the canonical encoding of the
well-formed Value `Integer(52)`: `encode(Integer(52))` is `"i52e"`, and
decoding it returns an `InvalidData` error instead of the value. -/
theorem roundtrip_fails_on_integer :
    Value.encode (Value.integer 52) = str "i52e" ∧
    Data.from_str Unit Unit (Value.encode (Value.integer 52)) =
      RResult.Err { kind := IoErrorKind.invalidData
                    msg := "expected splitcount 2, got 1" } := by
  decide

/-- Claim C2: the claim that decoding never panics fails on the code.
`decode_bencoded_value` reaches an explicit `panic!` on the input `"x"` (any
input not starting with a digit), and `IntegerFieldKey::from_str` reaches an
`unwrap` of a failed `i32` parse on the input `"a:b"` — both abort instead of
returning a typed error result. -/
theorem decode_paths_panic :
    decode_bencoded_value (str "x") =
      PanicOr.panicked "Unhandled encoded value: x" ∧
    IntegerFieldKey.from_str (str "a:b") =
      PanicOr.panicked "called Result unwrap on an Err value: ParseIntError" := by
  decide

/-- Claim C3: the ByteString grammar claim fails on the code.  The code does
decode `"5:hello"` to `Str("hello")` (its `length` field holds the parsed 5,
not the claimed consumed count 7, which the code never produces), but on
`"3:a:b"` — whose content `"a:b"` contains `':'` and has exactly the declared
3 bytes, so the claim requires success — it returns a split-count error, and
on `"2:abc"` it returns the entire content `"abc"` rather than exactly the
declared 2 bytes. -/
theorem from_str_bytestring_stub_behaviour :
    Data.from_str Unit Unit (str "5:hello") =
      RResult.Ok { length := 5, kind := Kind.Str (str "hello") } ∧
    Data.from_str Unit Unit (str "3:a:b") =
      RResult.Err { kind := IoErrorKind.invalidData
                    msg := "expected splitcount 2, got 3" } ∧
    Data.from_str Unit Unit (str "2:abc") =
      RResult.Ok { length := 2, kind := Kind.Str (str "abc") } := by
  decide

/-- Claim C4: the claim that decoding `"4:abc"` fails with `TruncatedInput`
fails on the code: `bencode::Data::from_str` never compares the declared
length with the content and succeeds with `Data { length: 4, kind:
Str("abc") }` (no `TruncatedInput` error exists anywhere in the source). -/
theorem from_str_accepts_truncated_input :
    Data.from_str Unit Unit (str "4:abc") =
      RResult.Ok { length := 4, kind := Kind.Str (str "abc") } := by
  decide

/-- Claim C5: the claim that `"i52e"` decodes to `Integer(52)` and `"i-1e"`
to `Integer(-1)` fails on the code: integer decoding is unimplemented, and
both inputs (having no colon, hence split count 1) are rejected with an
`InvalidData` split-count error. -/
theorem from_str_rejects_integer_tokens :
    Data.from_str Unit Unit (str "i52e") =
      RResult.Err { kind := IoErrorKind.invalidData
                    msg := "expected splitcount 2, got 1" } ∧
    Data.from_str Unit Unit (str "i-1e") =
      RResult.Err { kind := IoErrorKind.invalidData
                    msg := "expected splitcount 2, got 1" } := by
  decide

/-- Claim C6: the claim that `"i03e"`, `"i-0e"` and `"i-e"` each fail with
`MalformedInteger` holds only in its failure half: each input is rejected,
but with the generic `InvalidData` split-count error — no `MalformedInteger`
error (nor any integer validation) exists in the code. -/
theorem from_str_malformed_integers_split_error :
    Data.from_str Unit Unit (str "i03e") =
      RResult.Err { kind := IoErrorKind.invalidData
                    msg := "expected splitcount 2, got 1" } ∧
    Data.from_str Unit Unit (str "i-0e") =
      RResult.Err { kind := IoErrorKind.invalidData
                    msg := "expected splitcount 2, got 1" } ∧
    Data.from_str Unit Unit (str "i-e") =
      RResult.Err { kind := IoErrorKind.invalidData
                    msg := "expected splitcount 2, got 1" } := by
  decide

/-- Claim C7: the claim that the out-of-order dictionary
`"d5:hello3:foo3:bari52ee"` fails with `KeyOrderViolation` holds only in its
failure half: the input is rejected, but with the generic `InvalidData`
split-count error (its 3 colons give 4 parts) — dictionary decoding, key
ordering checks and any strict mode are all absent from the code. -/
theorem from_str_dictionary_split_error :
    Data.from_str Unit Unit (str "d5:hello3:foo3:bari52ee") =
      RResult.Err { kind := IoErrorKind.invalidData
                    msg := "expected splitcount 2, got 4" } := by
  decide

/-- Claim C8: decoding via `bencode::Data::from_str` is a pure, deterministic
function of its input: two runs on the same input string yield identical
results (the source reads nothing but its argument — no shared mutable
state — which the embedding renders as a total function). -/
theorem from_str_deterministic (s : List Char)
    (r₁ r₂ : RResult (Data Unit Unit) IoError)
    (h₁ : Data.from_str Unit Unit s = r₁) (h₂ : Data.from_str Unit Unit s = r₂) :
    r₁ = r₂ :=
  h₁.symm.trans h₂

/-- Witness for C8: both runs on `"5:hello"` give the same concrete result. -/
theorem from_str_deterministic_witness :
    (RResult.Ok { length := 5, kind := Kind.Str (str "hello") } :
        RResult (Data Unit Unit) IoError) =
      RResult.Ok { length := 5, kind := Kind.Str (str "hello") } :=
  from_str_deterministic (str "5:hello")
    (RResult.Ok { length := 5, kind := Kind.Str (str "hello") })
    (RResult.Ok { length := 5, kind := Kind.Str (str "hello") })
    (by decide) (by decide)

/-- Claim C9: `bencode::Data::from_str` succeeds exactly when the input
splits on `':'` into exactly two parts whose first part parses as `usize`,
and every successful result has kind `Str` (the `Int`, `Arr` and `Dic`
variants are never produced); nothing in the success condition relates the
parsed length to the content, as claimed. -/
theorem from_str_ok_characterization :
    (∀ s : List Char,
      (∃ d, Data.from_str Unit Unit s = RResult.Ok d) ↔
        ((splitColon s).length = 2 ∧
          ∃ a L, (splitColon s).get? 0 = some a ∧ parseUsizeE a = RResult.Ok L)) ∧
    (∀ (s : List Char) (d : Data Unit Unit),
      Data.from_str Unit Unit s = RResult.Ok d → ∃ cs, d.kind = Kind.Str cs) := by
  constructor
  · intro s
    constructor
    · rintro ⟨d, hd⟩
      rcases from_str_cases s with ⟨a, b, L, hsp, hp, _⟩ | hno
      · exact ⟨by rw [hsp]; rfl, a, L, by rw [hsp]; rfl, hp⟩
      · exact absurd hd (hno d)
    · rintro ⟨hlen, a, L, hget, hp⟩
      rcases List.length_eq_two.mp hlen with ⟨x, y, hxy⟩
      rw [hxy] at hget
      have hxa : x = a := by simpa using hget
      subst hxa
      exact ⟨{ length := L, kind := Kind.Str y }, by simp [Data.from_str, hxy, hp]⟩
  · intro s d hd
    rcases from_str_cases s with ⟨a, b, L, hsp, hp, heq⟩ | hno
    · have h2 := heq.symm.trans hd
      injection h2 with h3
      exact ⟨b, by rw [← h3]⟩
    · exact absurd hd (hno d)

/-- Witness for C9: `"12:x"` splits into two parts with parseable first part,
so decoding succeeds — here with declared length 12 against 1 content byte. -/
theorem from_str_ok_characterization_witness :
    ∃ d, Data.from_str Unit Unit (str "12:x") = RResult.Ok d :=
  (from_str_ok_characterization.1 (str "12:x")).mpr
    ⟨by decide, str "12", 12, by decide, by decide⟩

/-- Claim C10: every input containing at least one decimal digit character is
rejected by `IntegerFieldKey::from_str` with `Err(InvalidInput)` (decimal
digits are numeric, triggering the `is_numeric` guard), so no numeric
`<digits>:<digits>` key-value pair is ever accepted by this parser. -/
theorem integerFieldKey_from_str_rejects_digits :
    (∀ s : List Char, (∃ c, c ∈ s ∧ c.isDigit = true) →
      IntegerFieldKey.from_str s = PanicOr.ok (RResult.Err IoErrorKind.invalidInput)) ∧
    (∀ d1 d2 : List Char, d1 ≠ [] → (∀ c ∈ d1, c.isDigit = true) →
      ∀ k : IntegerFieldKey,
        IntegerFieldKey.from_str (d1 ++ ':' :: d2) ≠ PanicOr.ok (RResult.Ok k)) := by
  have main : ∀ s : List Char, (∃ c, c ∈ s ∧ c.isDigit = true) →
      IntegerFieldKey.from_str s = PanicOr.ok (RResult.Err IoErrorKind.invalidInput) := by
    rintro s ⟨c, hc, hd⟩
    have hany : s.any isNumericChar = true := List.any_eq_true.mpr ⟨c, hc, hd⟩
    simp [IntegerFieldKey.from_str, hany]
  refine ⟨main, ?_⟩
  intro d1 d2 h1 h2 k
  obtain ⟨c, hc⟩ := List.exists_mem_of_ne_nil d1 h1
  have hrej : IntegerFieldKey.from_str (d1 ++ ':' :: d2) =
      PanicOr.ok (RResult.Err IoErrorKind.invalidInput) :=
    main _ ⟨c, List.mem_append_left _ hc, h2 c hc⟩
  rw [hrej]
  simp

/-- Witness for C10: `"1:2"` contains the digit `'1'` and is rejected with
`InvalidInput`. -/
theorem integerFieldKey_from_str_rejects_digits_witness :
    IntegerFieldKey.from_str (str "1:2") =
      PanicOr.ok (RResult.Err IoErrorKind.invalidInput) :=
  integerFieldKey_from_str_rejects_digits.1 (str "1:2") ⟨'1', by decide, by decide⟩
